import Mathlib

/-!
Shallow embedding of the call-routing and reservation-lifecycle logic of the
twilio-ph-call-backend repository (the voiceResponse, incomingCall and
reservation controllers), together with theorems checking the
specification's claims about them.

Strings are modelled as lists of characters (`Str`); JavaScript falsiness of
a possibly-absent string is modelled by the empty list, covering both
`undefined` and `""`.  HTTP status codes are natural numbers.  Clock
readings (`today`, `now`, timestamps) are parameters, since the code reads
them from `new Date()`.
-/

namespace CallServer

abbrev Str : Type := List Char

def str (s : String) : Str := s.toList

/-- Target kinds of the transient routing decision. -/
inductive TargetKind
  | unspecified
  | client
  | sip
  | phone
  deriving DecidableEq

/-- Nouns nested inside a TwiML Dial verb, as built by dial.client,
dial.sip and dial.number in the source. -/
inductive DialNoun
  | client (identity : Str)
  | sip (uri : Str)
  | number (statusCallbackEvents : List Str) (statusCallback : Str)
      (statusCallbackMethod : Str) (digits : Str)
  deriving DecidableEq

/-- Attributes passed for response.dial in the source: callerId,
answerOnBridge, and the optional timeout. -/
structure DialAttrs where
  callerId : Str
  answerOnBridge : Bool
  timeout : Option Nat
  deriving DecidableEq

/-- Top-level TwiML verbs emitted by the controllers. -/
inductive Verb
  | say (voice language message : Str)
  | dial (attrs : DialAttrs) (nouns : List DialNoun)
  deriving DecidableEq

abbrev TwimlResponse : Type := List Verb

def clientTag : Str := str "client:"
def sipTag : Str := str "sip:"
def voiceAlice : Str := str "alice"
def langEnUS : Str := str "en-US"
def noDestinationMsg : Str :=
  str "No destination specified. Please provide a valid destination."
def noOneMsg : Str :=
  str "Thank you for calling. No one is available right now. Please try again later."
def warnNoTo : Str := str "No To parameter provided in voice request"
def warnNoCallerId : Str :=
  str "Attempting to call a phone number without a valid callerId configured"
def statusEvents : List Str :=
  [str "initiated", str "ringing", str "answered", str "completed"]
def methodPOST : Str := str "POST"

/-- JavaScript String.prototype.replace with a plain-string pattern and an
empty replacement: removes the first occurrence of `pat` (used in the source
as the replace call with the client prefix and the empty string). -/
def removeFirst (pat : Str) : Str → Str
  | [] => []
  | c :: rest =>
    if pat.isPrefixOf (c :: rest) then (c :: rest).drop pat.length
    else c :: removeFirst pat rest

/-- The regular expression test of the source, an optional leading plus,
a first digit one through nine, then one through fourteen further digits. -/
def phoneRegexTest (s : Str) : Bool :=
  let t := if s.head? = some '+' then s.tail else s
  match t with
  | [] => false
  | c :: rest =>
    decide ('1' ≤ c) && decide (c ≤ '9') && decide (1 ≤ rest.length) &&
      decide (rest.length ≤ 14) && rest.all Char.isDigit

/-- Lines 43 and 44 of the voice controller: the caller id presented by
default. `frm` is the From value after the client-anonymous default; `cfg`
is the configured Twilio caller id, with `[]` for unset or empty. -/
def resolveCallerId (frm cfg : Str) : Str :=
  if clientTag.isPrefixOf frm then (if cfg.isEmpty then frm else cfg) else frm

/-- The voiceResponse controller. Inputs: the To value (after the
body-or-query merge, `[]` when absent), the defaulted From value, the
configured caller id, and the configured server URL. Output: the TwiML
verbs of the response together with the warning-level log lines raised. -/
def voiceResponse (toV frm cfg url : Str) : TwimlResponse × List Str :=
  let callerId := resolveCallerId frm cfg
  if toV.isEmpty then
    ([Verb.say voiceAlice langEnUS noDestinationMsg], [warnNoTo])
  else if clientTag.isPrefixOf toV then
    ([Verb.dial ⟨callerId, true, some 20⟩
        [DialNoun.client (removeFirst clientTag toV)]], [])
  else if sipTag.isPrefixOf toV then
    ([Verb.dial ⟨callerId, true, none⟩ [DialNoun.sip toV]], [])
  else if phoneRegexTest toV then
    ([Verb.dial ⟨if cfg.isEmpty then callerId else cfg, true, some 20⟩
        [DialNoun.number statusEvents (url ++ str "/status") methodPOST toV]],
      if cfg.isEmpty then [warnNoCallerId] else [])
  else
    ([Verb.dial ⟨callerId, true, some 20⟩ [DialNoun.client toV]], [])

/-- The incomingCall controller: the Dial verb with callerId From is
created first; a client noun is added when To carries the client prefix,
otherwise the no-one-available Say verb is appended after the empty Dial. -/
def incomingCall (toV frm : Str) : TwimlResponse :=
  if !toV.isEmpty && clientTag.isPrefixOf toV then
    [Verb.dial ⟨frm, true, none⟩ [DialNoun.client (removeFirst clientTag toV)]]
  else
    [Verb.dial ⟨frm, true, none⟩ [], Verb.say voiceAlice langEnUS noOneMsg]

/-- Extracts the routing decision realised by a response: the kind and
address of the single dialled target, `unspecified` when none. -/
def routingDecision (r : TwimlResponse) : TargetKind × Str :=
  match r with
  | [Verb.dial _ [DialNoun.client c]] => (TargetKind.client, c)
  | [Verb.dial _ [DialNoun.sip u]] => (TargetKind.sip, u)
  | [Verb.dial _ [DialNoun.number _ _ _ n]] => (TargetKind.phone, n)
  | _ => (TargetKind.unspecified, [])

/-- The single Dial verb of a response, with its nouns, when there is one. -/
def respDial (r : TwimlResponse) : Option (DialAttrs × List DialNoun) :=
  match r with
  | [Verb.dial a ns] => some (a, ns)
  | _ => none

/-- The status-callback data carried by a noun, set only on number nouns. -/
def nounStatusCallback : DialNoun → Option (List Str × Str × Str)
  | DialNoun.number evs cb m _ => some (evs, cb, m)
  | _ => none

/-- Every dial target contained anywhere in a response. -/
def connectionTargets : TwimlResponse → List DialNoun
  | [] => []
  | Verb.dial _ ns :: rest => ns ++ connectionTargets rest
  | _ :: rest => connectionTargets rest

/-- The phone pattern as the specification words it: after an optional
leading plus, a run of two through fifteen digits whose first digit is not
zero. -/
def specPhone (s : Str) : Bool :=
  let core := if s.head? = some '+' then s.tail else s
  decide (2 ≤ core.length) && decide (core.length ≤ 15) &&
    core.all Char.isDigit && !(decide (core.head? = some '0'))

/-- The Destination Classifier as the specification states it: absent or
empty gives unspecified; a client prefix gives client with the remainder;
a sip prefix gives sip with the full string; a phone-pattern match gives
phone; anything else is the permissive client fallback. -/
def classifySpec (toV : Str) : TargetKind × Str :=
  if toV = [] then (TargetKind.unspecified, [])
  else if clientTag.isPrefixOf toV then (TargetKind.client, toV.drop clientTag.length)
  else if sipTag.isPrefixOf toV then (TargetKind.sip, toV)
  else if specPhone toV then (TargetKind.phone, toV)
  else (TargetKind.client, toV)

/-! ## Reservation data model and controllers -/

/-- A stored CallReservation row, after the prisma schema. Timestamps are
abstract natural numbers. -/
structure Reservation where
  id : Int
  username : Str
  title : Option Str
  description : Option Str
  reservationDate : Str
  startTime : Str
  endTime : Str
  status : Str
  phoneNumber : Option Str
  callSid : Option Str
  callDuration : Option Int
  createdAt : Nat
  updatedAt : Nat
  deriving DecidableEq

/-- The reservation table. -/
structure Store where
  reservations : List Reservation
  deriving DecidableEq

def strScheduled : Str := str "scheduled"
def strOngoing : Str := str "ongoing"
def strCompleted : Str := str "completed"

/-- Value of a run of decimal digits, `none` when the run is empty; models
how parseInt consumes the longest digit run after the sign. -/
def decDigitsVal (s : Str) : Option Nat :=
  let ds := s.takeWhile Char.isDigit
  if ds.isEmpty then none
  else some (ds.foldl (fun a c => a * 10 + (c.toNat - 48)) 0)

/-- JavaScript parseInt with radix ten: leading whitespace skipped, an
optional sign, then the longest decimal-digit run; `none` models NaN. -/
def parseIntBase10 (s : Str) : Option Int :=
  let t := s.dropWhile Char.isWhitespace
  match t with
  | [] => none
  | c :: r =>
    if c = '-' then (decDigitsVal r).map (fun v => -(v : Int))
    else if c = '+' then (decDigitsVal r).map (fun v => (v : Int))
    else (decDigitsVal (c :: r)).map (fun v => (v : Int))

def hexDigitVal (c : Char) : Nat :=
  if c.isDigit then c.toNat - 48
  else if 'a' ≤ c && c ≤ 'f' then c.toNat - 87
  else c.toNat - 55

def isHexDigit (c : Char) : Bool :=
  c.isDigit || ('a' ≤ c && c ≤ 'f') || ('A' ≤ c && c ≤ 'F')

/-- Value of a run of hexadecimal digits, `none` when empty. -/
def hexDigitsVal (s : Str) : Option Nat :=
  let ds := s.takeWhile isHexDigit
  if ds.isEmpty then none
  else some (ds.foldl (fun a c => a * 16 + hexDigitVal c) 0)

/-- JavaScript parseInt without a radix argument, as in the update
controller: like radix ten, except that a leading 0x or 0X selects radix
sixteen. -/
def parseIntAuto (s : Str) : Option Int :=
  let t := s.dropWhile Char.isWhitespace
  match t with
  | '0' :: 'x' :: r => (hexDigitsVal r).map (fun v => (v : Int))
  | '0' :: 'X' :: r => (hexDigitsVal r).map (fun v => (v : Int))
  | '-' :: '0' :: 'x' :: r => (hexDigitsVal r).map (fun v => -(v : Int))
  | '-' :: '0' :: 'X' :: r => (hexDigitsVal r).map (fun v => -(v : Int))
  | '+' :: '0' :: 'x' :: r => (hexDigitsVal r).map (fun v => (v : Int))
  | '+' :: '0' :: 'X' :: r => (hexDigitsVal r).map (fun v => (v : Int))
  | _ => parseIntBase10 s

/-- Prisma-style errors surfaced by the storage collaborator. -/
inductive PrismaErr
  | recordNotFound
  deriving DecidableEq

/-- prisma.callReservation.update with a unique-id where clause: applies
the data function when a row with that id exists, otherwise rejects. -/
def prismaUpdate (s : Store) (i : Int) (f : Reservation → Reservation) :
    Except PrismaErr Store :=
  if s.reservations.any (fun r => r.id == i) then
    Except.ok ⟨s.reservations.map (fun r => if r.id == i then f r else r)⟩
  else Except.error PrismaErr.recordNotFound

/-- The status handed back by handleError in the controller source. -/
def handleErrorStatus : Nat := 500

/-- Fields of the update request body; absent fields stay `none` and are
left out of the merge, mirroring prisma treating undefined as not given.
status and callDuration are destructured explicitly in the source; the
rest is the otherData spread. -/
structure UpdateBody where
  status : Option Str := none
  callDuration : Option Int := none
  username : Option Str := none
  title : Option Str := none
  description : Option Str := none
  reservationDate : Option Str := none
  startTime : Option Str := none
  endTime : Option Str := none
  phoneNumber : Option Str := none
  callSid : Option Str := none
  deriving DecidableEq

/-- Merge of the update body into a row, with the updatedAt refresh done
by the storage layer. -/
def applyUpdate (b : UpdateBody) (tnow : Nat) (r : Reservation) : Reservation :=
  { r with
    status := b.status.getD r.status
    callDuration := match b.callDuration with
      | some d => some d
      | none => r.callDuration
    username := b.username.getD r.username
    title := match b.title with | some t => some t | none => r.title
    description := match b.description with | some d => some d | none => r.description
    reservationDate := b.reservationDate.getD r.reservationDate
    startTime := b.startTime.getD r.startTime
    endTime := b.endTime.getD r.endTime
    phoneNumber := match b.phoneNumber with | some p => some p | none => r.phoneNumber
    callSid := match b.callSid with | some c => some c | none => r.callSid
    updatedAt := tnow }

/-- The updateReservation controller: parseInt without radix on the id,
then a prisma update; every thrown error lands in handleError. Returns
the status, the updated row when any, and the resulting table. -/
def updateReservation (s : Store) (idStr : Str) (b : UpdateBody) (tnow : Nat) :
    Nat × Option Reservation × Store :=
  match parseIntAuto idStr with
  | none => (handleErrorStatus, none, s)
  | some n =>
    match prismaUpdate s n (applyUpdate b tnow) with
    | Except.ok s2 => (200, s2.reservations.find? (fun r => r.id == n), s2)
    | Except.error _ => (handleErrorStatus, none, s)

/-- The getReservationById controller: missing id gives 400, a NaN parse
at radix ten gives 400, a missing row gives 404, otherwise 200 with the
row. -/
def getReservationById (s : Store) (idStr : Str) : Nat × Option Reservation :=
  if idStr.isEmpty then (400, none)
  else
    match parseIntBase10 idStr with
    | none => (400, none)
    | some n =>
      match s.reservations.find? (fun r => r.id == n) with
      | some r => (200, some r)
      | none => (404, none)

/-- Fields of the create request body. The controller destructures only
the five listed request fields; anything else a caller sends sits in the
remaining components and is never read. -/
structure CreateBody where
  username : Str
  reservationDate : Str
  startTime : Str
  endTime : Str
  phoneNumber : Option Str
  status : Option Str := none
  callDuration : Option Int := none
  callSid : Option Str := none
  id : Option Int := none
  title : Option Str := none
  deriving DecidableEq

/-- The createReservation controller: required-field validation, then a
prisma create whose unset columns take the schema defaults. newId is the
autoincrement value chosen by the store, tnow the creation timestamp. -/
def createReservation (s : Store) (b : CreateBody) (newId : Int) (tnow : Nat) :
    Nat × Option Reservation × Store :=
  if b.username.isEmpty || b.reservationDate.isEmpty || b.startTime.isEmpty
      || b.endTime.isEmpty then
    (400, none, s)
  else
    let r : Reservation :=
      { id := newId
        username := b.username
        title := none
        description := none
        reservationDate := b.reservationDate
        startTime := b.startTime
        endTime := b.endTime
        status := strScheduled
        phoneNumber := b.phoneNumber
        callSid := none
        callDuration := none
        createdAt := tnow
        updatedAt := tnow }
    (201, some r, ⟨s.reservations ++ [r]⟩)

/-- Lexicographic string comparison by code point, the order prisma's lt
applies to the date and time strings. -/
def strLt : Str → Str → Bool
  | [], [] => false
  | [], _ :: _ => true
  | _ :: _, [] => false
  | a :: as, b :: bs => if a = b then strLt as bs else decide (a < b)

/-- The where clause of the expiry sweep: status ongoing and either a past
date, or today with a past end time. -/
def isExpired (today now : Str) (r : Reservation) : Bool :=
  r.status == strOngoing &&
    (strLt r.reservationDate today ||
      (r.reservationDate == today && strLt r.endTime now))

/-- The data written for one expired row: completed status and the fetched
row's callDuration with zero for unset, exactly the JS expression
callDuration-or-zero. -/
def completeData (fetched : Reservation) (tnow : Nat) (x : Reservation) :
    Reservation :=
  { x with
    status := strCompleted
    callDuration := some (fetched.callDuration.getD 0)
    updatedAt := tnow }

/-- The per-row update loop over the fetched expired rows, each one a
prisma update keyed by that row's id; the first storage error aborts. -/
def sweepUpdates (s : Store) (tnow : Nat) :
    List Reservation → Except PrismaErr Store
  | [] => Except.ok s
  | r :: rest =>
    match prismaUpdate s r.id (completeData r tnow) with
    | Except.ok s2 => sweepUpdates s2 tnow rest
    | Except.error e => Except.error e

/-- The updateExpiredReservations controller: fetch the expired ongoing
rows at clock reading (today, now); empty is a success with count zero;
otherwise update each row and report the count. -/
def updateExpiredReservations (s : Store) (today now : Str) (tnow : Nat) :
    Nat × Nat × Store :=
  let expired := s.reservations.filter (isExpired today now)
  if expired.isEmpty then (200, 0, s)
  else
    match sweepUpdates s tnow expired with
    | Except.ok s2 => (200, expired.length, s2)
    | Except.error _ => (handleErrorStatus, 0, s)

/-- The row an id-keyed batch of updates leaves at x: the completion data
of the fetched row with the same id, when one is in the batch. -/
def updById (l : List Reservation) (tnow : Nat) (x : Reservation) : Reservation :=
  match l.find? (fun r => r.id == x.id) with
  | some r => completeData r tnow x
  | none => x

/-- A stored sample reservation used by concrete witnesses. -/
def demoRes : Reservation :=
  { id := 12, username := str "ann", title := none, description := none
    reservationDate := str "2025-01-10", startTime := str "09:00"
    endTime := str "10:00", status := strScheduled, phoneNumber := none
    callSid := none, callDuration := none, createdAt := 0, updatedAt := 0 }

/-- A one-row sample table. -/
def demoStore : Store := ⟨[demoRes]⟩

/-- A create body carrying only the five read fields. -/
def demoBodyPlain : CreateBody :=
  { username := str "bob", reservationDate := str "2025-01-10"
    startTime := str "09:00", endTime := str "10:00", phoneNumber := none }

/-- The same create body with every ignored extra field supplied. -/
def demoBodyExtras : CreateBody :=
  { demoBodyPlain with
    status := some strOngoing, callDuration := some 99
    callSid := some (str "CA1"), id := some 7, title := some (str "t") }

/-- The row the sample create persists. -/
def demoCreated : Reservation :=
  { id := 1, username := str "bob", title := none, description := none
    reservationDate := str "2025-01-10", startTime := str "09:00"
    endTime := str "10:00", status := strScheduled, phoneNumber := none
    callSid := none, callDuration := none, createdAt := 0, updatedAt := 0 }

/-- An overdue ongoing sample reservation. -/
def demoOngoing : Reservation :=
  { id := 5, username := str "joe", title := none, description := none
    reservationDate := str "2025-01-10", startTime := str "09:00"
    endTime := str "10:00", status := strOngoing, phoneNumber := none
    callSid := none, callDuration := none, createdAt := 0, updatedAt := 0 }

/-- A two-row sample table with one overdue ongoing reservation. -/
def demoSweepStore : Store := ⟨[demoOngoing, demoRes]⟩

/-! ## Character and string helper lemmas -/

lemma char_eq_zero_iff (c : Char) : c = '0' ↔ c.val.toNat = 48 := by
  constructor
  · intro h; subst h; rfl
  · intro h; exact Char.ext (UInt32.toNat.inj h)

lemma digit_range_iff (c : Char) :
    ('1' ≤ c ∧ c ≤ '9') ↔ (c.isDigit = true ∧ c ≠ '0') := by
  have hle : ∀ a b : UInt32, (a ≤ b) ↔ a.toNat ≤ b.toNat := fun a b => Iff.rfl
  simp only [Char.isDigit, Char.le_def, hle, Bool.and_eq_true, decide_eq_true_eq,
    ge_iff_le, ne_eq, char_eq_zero_iff]
  have h1 : ('1').val.toNat = 49 := rfl
  have h9 : ('9').val.toNat = 57 := rfl
  have h48 : (48 : UInt32).toNat = 48 := rfl
  have h57 : (57 : UInt32).toNat = 57 := rfl
  rw [h1, h9, h48, h57]
  omega

lemma removeFirst_of_isPrefixOf (pat s : Str) (h : pat.isPrefixOf s = true) :
    removeFirst pat s = s.drop pat.length := by
  cases s with
  | nil => cases pat with
    | nil => rfl
    | cons p ps => simp [List.isPrefixOf] at h
  | cons c rest => simp [removeFirst, h]

lemma phoneRegexTest_eq_specPhone (s : Str) : phoneRegexTest s = specPhone s := by
  simp only [phoneRegexTest, specPhone]
  cases hc : (if s.head? = some '+' then s.tail else s) with
  | nil => simp
  | cons c rest =>
    simp only [List.length_cons, List.all_cons, List.head?_cons]
    rw [Bool.eq_iff_iff]
    simp only [Bool.and_eq_true, decide_eq_true_eq, Bool.not_eq_true',
      decide_eq_false_iff_not, Option.some.injEq, List.all_eq_true]
    constructor
    · rintro ⟨⟨⟨⟨h19a, h19b⟩, hlen1⟩, hlen2⟩, hall⟩
      have hd := (digit_range_iff c).mp ⟨h19a, h19b⟩
      exact ⟨⟨⟨by omega, by omega⟩, hd.1, hall⟩, hd.2⟩
    · rintro ⟨⟨⟨hlen1, hlen2⟩, hdig, hall⟩, hne⟩
      have hd := (digit_range_iff c).mpr ⟨hdig, hne⟩
      exact ⟨⟨⟨⟨hd.1, hd.2⟩, by omega⟩, by omega⟩, hall⟩

lemma classify_of_client (toV : Str) (h0 : toV ≠ [])
    (h1 : clientTag.isPrefixOf toV = true) :
    classifySpec toV = (TargetKind.client, toV.drop clientTag.length) := by
  simp [classifySpec, h0, h1]

lemma classify_of_sip (toV : Str) (h0 : toV ≠ [])
    (h1 : clientTag.isPrefixOf toV = false) (h2 : sipTag.isPrefixOf toV = true) :
    classifySpec toV = (TargetKind.sip, toV) := by
  simp [classifySpec, h0, h1, h2]

lemma classify_of_phone (toV : Str) (h0 : toV ≠ [])
    (h1 : clientTag.isPrefixOf toV = false) (h2 : sipTag.isPrefixOf toV = false)
    (h3 : phoneRegexTest toV = true) :
    classifySpec toV = (TargetKind.phone, toV) := by
  have h3s : specPhone toV = true := by rw [← phoneRegexTest_eq_specPhone]; exact h3
  simp [classifySpec, h0, h1, h2, h3s]

lemma classify_of_fallback (toV : Str) (h0 : toV ≠ [])
    (h1 : clientTag.isPrefixOf toV = false) (h2 : sipTag.isPrefixOf toV = false)
    (h3 : phoneRegexTest toV = false) :
    classifySpec toV = (TargetKind.client, toV) := by
  have h3s : specPhone toV = false := by rw [← phoneRegexTest_eq_specPhone]; exact h3
  simp [classifySpec, h0, h1, h2, h3s]

lemma classify_phone_iff (toV : Str) :
    (classifySpec toV).1 = TargetKind.phone ↔
      (toV ≠ [] ∧ clientTag.isPrefixOf toV = false ∧
        sipTag.isPrefixOf toV = false ∧ phoneRegexTest toV = true) := by
  constructor
  · intro h
    by_cases h0 : toV = []
    · subst h0; simp [classifySpec] at h
    · by_cases h1 : clientTag.isPrefixOf toV
      · rw [classify_of_client toV h0 h1] at h; simp at h
      · rw [Bool.not_eq_true] at h1
        by_cases h2 : sipTag.isPrefixOf toV
        · rw [classify_of_sip toV h0 h1 h2] at h; simp at h
        · rw [Bool.not_eq_true] at h2
          by_cases h3 : phoneRegexTest toV
          · exact ⟨h0, h1, h2, h3⟩
          · rw [Bool.not_eq_true] at h3
            rw [classify_of_fallback toV h0 h1 h2 h3] at h
            simp at h
  · rintro ⟨h0, h1, h2, h3⟩
    rw [classify_of_phone toV h0 h1 h2 h3]

/-! ## Claims about the call-routing controllers -/

/-- C1: for every raw destination, the routing decision realised inside
voiceResponse agrees with the Destination Classifier contract of the
specification: absent or empty gives the unspecified fallback, a client
prefix gives a client target on the remainder, a sip prefix gives a sip
target on the full string, a phone-pattern match gives a phone target,
and anything else is the permissive client fallback; every input yields
a decision. -/
theorem claim1_classifier (toV frm cfg url : Str) :
    routingDecision (voiceResponse toV frm cfg url).1 = classifySpec toV := by
  by_cases h0 : toV = []
  · subst h0; simp [voiceResponse, classifySpec, routingDecision]
  · have h0e : toV.isEmpty = false := by
      cases toV with
      | nil => exact absurd rfl h0
      | cons a l => rfl
    by_cases h1 : clientTag.isPrefixOf toV
    · simp [voiceResponse, classifySpec, routingDecision, h0, h0e, h1,
        removeFirst_of_isPrefixOf _ _ h1]
    · by_cases h2 : sipTag.isPrefixOf toV
      · simp [voiceResponse, classifySpec, routingDecision, h0, h0e, h1, h2]
      · by_cases h3 : phoneRegexTest toV
        · have h3s : specPhone toV = true := by
            rw [← phoneRegexTest_eq_specPhone]; exact h3
          simp [voiceResponse, classifySpec, routingDecision, h0, h0e, h1, h2, h3, h3s]
        · have h3s : specPhone toV = false := by
            rw [← phoneRegexTest_eq_specPhone]; simpa using h3
          simp [voiceResponse, classifySpec, routingDecision, h0, h0e, h1, h2, h3, h3s]

/-- C4: when From carries the client prefix the resolved caller id is the
configured verified number when one is set and non-empty and From itself
otherwise; on a phone-classified target the dialled caller id is the
configured number when available, else the identity-resolved fallback,
and the warning-level signal is raised exactly when no number is
configured while the dial still goes out. -/
theorem claim4_caller_identity (toV frm cfg url : Str) :
    (clientTag.isPrefixOf frm = true →
      resolveCallerId frm cfg = (if cfg = [] then frm else cfg)) ∧
    ((classifySpec toV).1 = TargetKind.phone →
      (∀ a ns, respDial (voiceResponse toV frm cfg url).1 = some (a, ns) →
        a.callerId = (if cfg = [] then resolveCallerId frm cfg else cfg)) ∧
      respDial (voiceResponse toV frm cfg url).1 ≠ none ∧
      ((voiceResponse toV frm cfg url).2 ≠ [] ↔ cfg = [])) := by
  constructor
  · intro hfrm
    by_cases hc : cfg = []
    · simp [resolveCallerId, hfrm, hc]
    · have : cfg.isEmpty = false := by
        cases cfg with
        | nil => exact absurd rfl hc
        | cons a l => rfl
      simp [resolveCallerId, hfrm, hc, this]
  · intro hphone
    obtain ⟨h0, h1, h2, h3⟩ := (classify_phone_iff toV).mp hphone
    have h0e : toV.isEmpty = false := by
      cases toV with
      | nil => exact absurd rfl h0
      | cons a l => rfl
    by_cases hc : cfg = []
    · have hce : cfg.isEmpty = true := by simp [hc]
      refine ⟨?_, ?_, ?_⟩
      · intro a ns hresp
        simp [voiceResponse, h0e, h1, h2, h3, hce, respDial, hc] at hresp ⊢
        obtain ⟨ha, hns⟩ := hresp
        subst ha
        rfl
      · simp [voiceResponse, h0e, h1, h2, h3, hce, respDial]
      · simp [voiceResponse, h0e, h1, h2, h3, hce, hc, warnNoCallerId]
    · have hce : cfg.isEmpty = false := by
        cases cfg with
        | nil => exact absurd rfl hc
        | cons a l => rfl
      refine ⟨?_, ?_, ?_⟩
      · intro a ns hresp
        simp [voiceResponse, h0e, h1, h2, h3, hce, respDial, hc] at hresp ⊢
        obtain ⟨ha, hns⟩ := hresp
        subst ha
        rfl
      · simp [voiceResponse, h0e, h1, h2, h3, hce, respDial]
      · simp [voiceResponse, h0e, h1, h2, h3, hce, hc]

/-- Witness for C4 at a concrete phone call from a client identity with no
configured number: the resolved id falls back to From and the warning
fires. -/
theorem claim4_witness :
    resolveCallerId (str "client:alice") [] = str "client:alice" ∧
    (voiceResponse (str "+14155551234") (str "client:alice") [] (str "http://s")).2 ≠ [] := by
  have h := claim4_caller_identity (str "+14155551234") (str "client:alice") []
    (str "http://s")
  have h2 := h.2 (by decide)
  refine ⟨?_, h2.2.2.mpr rfl⟩
  have h1 := h.1 (by decide)
  simpa using h1

/-- C7 counterexample: on a sip destination the emitted Dial verb carries
no timeout at all, so its timeout is not the claimed twenty seconds. -/
theorem claim7_counterexample :
    (voiceResponse (str "sip:alice@example.com") (str "client:bob")
        (str "+15550001111") (str "http://srv")).1 =
      [Verb.dial ⟨str "+15550001111", true, none⟩
        [DialNoun.sip (str "sip:alice@example.com")]] ∧
    (none : Option Nat) ≠ some 20 := by
  constructor
  · decide
  · decide

/-- C7 as amended: every routed destination gets answerOnBridge true; the
timeout is twenty seconds for client, phone and bare-identifier targets
but left unset on sip targets; and a status-callback target, with the
initiated, ringing, answered and completed events posted to the status
path of the server URL, is attached exactly for phone targets. -/
theorem claim7_amended (toV frm cfg url : Str) (h0 : toV ≠ []) :
    ∃ a ns, respDial (voiceResponse toV frm cfg url).1 = some (a, ns) ∧
      a.answerOnBridge = true ∧
      a.timeout = (if (classifySpec toV).1 = TargetKind.sip then none else some 20) ∧
      ((∃ n ∈ ns, nounStatusCallback n ≠ none) ↔ (classifySpec toV).1 = TargetKind.phone) ∧
      (∀ n evs cb m, n ∈ ns → nounStatusCallback n = some (evs, cb, m) →
        evs = statusEvents ∧ cb = url ++ str "/status" ∧ m = methodPOST) := by
  have h0e : toV.isEmpty = false := by
    cases toV with
    | nil => exact absurd rfl h0
    | cons a l => rfl
  by_cases h1 : clientTag.isPrefixOf toV
  · refine ⟨⟨resolveCallerId frm cfg, true, some 20⟩,
      [DialNoun.client (removeFirst clientTag toV)], ?_, rfl, ?_, ?_, ?_⟩
    · simp [voiceResponse, h0e, h1, respDial]
    · rw [classify_of_client toV h0 h1]; simp
    · rw [classify_of_client toV h0 h1]; simp [nounStatusCallback]
    · intro n evs cb m hn hcb
      simp at hn; subst hn; simp [nounStatusCallback] at hcb
  · rw [Bool.not_eq_true] at h1
    by_cases h2 : sipTag.isPrefixOf toV
    · refine ⟨⟨resolveCallerId frm cfg, true, none⟩, [DialNoun.sip toV], ?_, rfl, ?_, ?_, ?_⟩
      · simp [voiceResponse, h0e, h1, h2, respDial]
      · rw [classify_of_sip toV h0 h1 h2]; simp
      · rw [classify_of_sip toV h0 h1 h2]; simp [nounStatusCallback]
      · intro n evs cb m hn hcb
        simp at hn; subst hn; simp [nounStatusCallback] at hcb
    · rw [Bool.not_eq_true] at h2
      by_cases h3 : phoneRegexTest toV
      · refine ⟨⟨if cfg.isEmpty then resolveCallerId frm cfg else cfg, true, some 20⟩,
          [DialNoun.number statusEvents (url ++ str "/status") methodPOST toV],
          ?_, rfl, ?_, ?_, ?_⟩
        · simp [voiceResponse, h0e, h1, h2, h3, respDial]
        · rw [classify_of_phone toV h0 h1 h2 h3]; simp
        · rw [classify_of_phone toV h0 h1 h2 h3]; simp [nounStatusCallback]
        · intro n evs cb m hn hcb
          simp at hn; subst hn
          simp [nounStatusCallback] at hcb
          exact ⟨hcb.1.symm, hcb.2.1.symm, hcb.2.2.symm⟩
      · rw [Bool.not_eq_true] at h3
        refine ⟨⟨resolveCallerId frm cfg, true, some 20⟩, [DialNoun.client toV],
          ?_, rfl, ?_, ?_, ?_⟩
        · simp [voiceResponse, h0e, h1, h2, h3, respDial]
        · rw [classify_of_fallback toV h0 h1 h2 h3]; simp
        · rw [classify_of_fallback toV h0 h1 h2 h3]; simp [nounStatusCallback]
        · intro n evs cb m hn hcb
          simp at hn; subst hn; simp [nounStatusCallback] at hcb

/-- Witness for the amended C7 at a concrete client destination. -/
theorem claim7_witness :
    respDial (voiceResponse (str "client:carol") (str "client:dave") []
      (str "http://s")).1 ≠ none := by
  obtain ⟨a, ns, hr, -, -, -, -⟩ := claim7_amended (str "client:carol")
    (str "client:dave") [] (str "http://s") (by decide)
  simp [hr]

/-- C8: in inbound mode a client-prefixed To is dialled as that client
with caller id From; any other To yields the no-one-available spoken
message and no dial target at all. -/
theorem claim8_incoming (toV frm : Str) :
    (clientTag.isPrefixOf toV = true →
      incomingCall toV frm =
        [Verb.dial ⟨frm, true, none⟩ [DialNoun.client (toV.drop clientTag.length)]]) ∧
    (clientTag.isPrefixOf toV = false →
      connectionTargets (incomingCall toV frm) = [] ∧
      Verb.say voiceAlice langEnUS noOneMsg ∈ incomingCall toV frm) := by
  constructor
  · intro h1
    have h0 : toV ≠ [] := by
      intro hnil
      rw [hnil] at h1
      exact absurd h1 (by decide)
    have h0e : toV.isEmpty = false := by
      cases toV with
      | nil => exact absurd rfl h0
      | cons a l => rfl
    simp [incomingCall, h0e, h1, removeFirst_of_isPrefixOf _ _ h1]
  · intro h1
    simp [incomingCall, h1, connectionTargets]

/-- Witness for C8 at a concrete client target and at an absent target. -/
theorem claim8_witness :
    incomingCall (str "client:bob") (str "+15551230000") =
      [Verb.dial ⟨str "+15551230000", true, none⟩ [DialNoun.client (str "bob")]] ∧
    connectionTargets (incomingCall [] (str "+15551230000")) = [] := by
  constructor
  · have h := (claim8_incoming (str "client:bob") (str "+15551230000")).1 (by decide)
    rw [h]
    decide
  · exact ((claim8_incoming [] (str "+15551230000")).2 (by decide)).1

/-! ## Parsing helper lemmas for the reservation controllers -/
lemma digit_not_ws (c : Char) (h : c.isDigit = true) : c.isWhitespace = false := by
  simp [Char.isDigit] at h
  simp [Char.isWhitespace]
  refine ⟨⟨⟨?_, ?_⟩, ?_⟩, ?_⟩ <;> (intro hc; subst hc; simp at h)

lemma digit_ne_dash (c : Char) (h : c.isDigit = true) : c ≠ '-' := by
  intro hc; subst hc; exact absurd h (by decide)

lemma digit_ne_plus (c : Char) (h : c.isDigit = true) : c ≠ '+' := by
  intro hc; subst hc; exact absurd h (by decide)

lemma takeWhile_all_eq_self (p : Char → Bool) (l : Str) (h : l.all p = true) :
    l.takeWhile p = l := by
  induction l with
  | nil => rfl
  | cons d ds ih =>
    simp only [List.all_cons, Bool.and_eq_true] at h
    simp [List.takeWhile_cons, h.1, ih h.2]

lemma takeWhile_digits_append (ds : Str) (c : Char) (rest : Str)
    (hall : ds.all Char.isDigit = true) (hc : c.isDigit = false) :
    (ds ++ c :: rest).takeWhile Char.isDigit = ds := by
  induction ds with
  | nil => simp [List.takeWhile_cons, hc]
  | cons d ds ih =>
    simp only [List.all_cons, Bool.and_eq_true] at hall
    simp [List.takeWhile_cons, hall.1, ih hall.2]

lemma decDigitsVal_all_some (ds : Str) (hne : ds ≠ [])
    (hall : ds.all Char.isDigit = true) : decDigitsVal ds ≠ none := by
  unfold decDigitsVal
  rw [takeWhile_all_eq_self Char.isDigit ds hall]
  cases ds with
  | nil => exact absurd rfl hne
  | cons d l => simp

lemma parseIntBase10_digits (ds : Str) (hne : ds ≠ [])
    (hall : ds.all Char.isDigit = true) :
    parseIntBase10 ds = (decDigitsVal ds).map (fun v => (v : Int)) := by
  cases ds with
  | nil => exact absurd rfl hne
  | cons d l =>
    simp only [List.all_cons, Bool.and_eq_true] at hall
    unfold parseIntBase10
    rw [List.dropWhile_cons]
    rw [digit_not_ws d hall.1]
    simp only [Bool.false_eq_true, if_false]
    rw [if_neg (digit_ne_dash d hall.1), if_neg (digit_ne_plus d hall.1)]

lemma parseIntBase10_digits_append (ds : Str) (c : Char) (rest : Str)
    (hne : ds ≠ []) (hall : ds.all Char.isDigit = true) (hc : c.isDigit = false) :
    parseIntBase10 (ds ++ c :: rest) = parseIntBase10 ds := by
  cases ds with
  | nil => exact absurd rfl hne
  | cons d l =>
    have hall2 := hall
    simp only [List.all_cons, Bool.and_eq_true] at hall2
    rw [parseIntBase10_digits (d :: l) hne hall]
    unfold parseIntBase10
    rw [List.cons_append, List.dropWhile_cons]
    rw [digit_not_ws d hall2.1]
    simp only [Bool.false_eq_true, if_false]
    rw [if_neg (digit_ne_dash d hall2.1), if_neg (digit_ne_plus d hall2.1)]
    unfold decDigitsVal
    rw [← List.cons_append, takeWhile_digits_append (d :: l) c rest hall hc,
      takeWhile_all_eq_self Char.isDigit (d :: l) hall]

/-! ## Claims about the reservation controllers -/

/-- C10: the id check of getReservationById accepts any string whose
base-ten parseInt succeeds on a prefix: a digit run followed by non-digit
garbage is looked up under the numeric prefix rather than rejected with
the bad-id error, and a negative integer string passes the format check
and ends in not-found on a table of positive ids. -/
theorem claim10_parse (s : Store) (ds rest : Str) (c : Char)
    (h1 : ds ≠ []) (h2 : ds.all Char.isDigit = true) (h3 : c.isDigit = false)
    (h4 : ∀ r ∈ s.reservations, 0 < r.id) :
    getReservationById s (ds ++ c :: rest) = getReservationById s ds ∧
    (getReservationById s (ds ++ c :: rest)).1 ≠ 400 ∧
    (getReservationById s ('-' :: ds)).1 = 404 := by
  have hdse : ds.isEmpty = false := by
    cases ds with
    | nil => exact absurd rfl h1
    | cons a l => rfl
  have happe : (ds ++ c :: rest).isEmpty = false := by
    cases ds with
    | nil => exact absurd rfl h1
    | cons a l => rfl
  have hparse := parseIntBase10_digits_append ds c rest h1 h2 h3
  have hsome : parseIntBase10 ds ≠ none := by
    rw [parseIntBase10_digits ds h1 h2]
    cases hd : decDigitsVal ds with
    | none => exact absurd hd (decDigitsVal_all_some ds h1 h2)
    | some v => simp
  refine ⟨?_, ?_, ?_⟩
  · simp only [getReservationById, hdse, happe, Bool.false_eq_true, if_false, hparse]
  · simp only [getReservationById, happe, Bool.false_eq_true, if_false, hparse]
    cases hp : parseIntBase10 ds with
    | none => exact absurd hp hsome
    | some n =>
      cases hf : s.reservations.find? (fun r => r.id == n) with
      | none => simp [hf]
      | some r => simp [hf]
  · have hwd : ('-' :: ds).isEmpty = false := rfl
    simp only [getReservationById, hwd, Bool.false_eq_true, if_false]
    have hwsd : ('-').isWhitespace = false := by decide
    have hneg : parseIntBase10 ('-' :: ds) =
        (decDigitsVal ds).map (fun v => -(v : Int)) := by
      unfold parseIntBase10
      rw [List.dropWhile_cons, hwsd]
      simp
    rw [hneg]
    cases hd : decDigitsVal ds with
    | none => exact absurd hd (decDigitsVal_all_some ds h1 h2)
    | some v =>
      have hfind : s.reservations.find? (fun r => r.id == -(v : Int)) = none := by
        rw [List.find?_eq_none]
        intro r hr
        simp only [beq_iff_eq]
        have := h4 r hr
        omega
      simp [hfind]


/-- Witness for C10 on the sample table: the id 12abc behaves as 12 and
the id -12 gives not-found. -/
theorem claim10_witness :
    getReservationById demoStore (str "12" ++ 'a' :: str "bc") =
      getReservationById demoStore (str "12") ∧
    (getReservationById demoStore ('-' :: str "12")).1 = 404 := by
  have h := claim10_parse demoStore (str "12") (str "bc") 'a' (by decide) (by decide)
    (by decide) (by decide)
  exact ⟨h.1, h.2.2⟩

/-- C6 counterexample: the id -5 is not a well-formed positive integer,
yet getReservationById does not fail with the bad-id error; it proceeds
to the lookup and reports not-found. -/
theorem claim6_counterexample :
    (getReservationById ⟨[]⟩ (str "-5")).1 = 404 ∧
    (getReservationById ⟨[]⟩ (str "-5")).1 ≠ 400 := by
  constructor
  · decide
  · decide

/-- C6 as amended: getReservationById fails with 400 exactly when the
radix-ten parseInt of the id is NaN, with the empty id included; it
fails with 404 exactly when the parse yields a number no stored row
carries; and when a row with the parsed id exists it is returned
unchanged with 200. -/
theorem claim6_amended (s : Store) (idStr : Str) :
    ((getReservationById s idStr).1 = 400 ↔ parseIntBase10 idStr = none) ∧
    ((getReservationById s idStr).1 = 404 ↔
      ∃ n, parseIntBase10 idStr = some n ∧
        s.reservations.find? (fun r => r.id == n) = none) ∧
    (∀ n r, parseIntBase10 idStr = some n →
      s.reservations.find? (fun r => r.id == n) = some r →
      getReservationById s idStr = (200, some r)) := by
  by_cases he : idStr = []
  · subst he
    have hres : getReservationById s [] = (400, none) := rfl
    have hp : parseIntBase10 [] = (none : Option Int) := rfl
    refine ⟨by rw [hres]; simp [hp], by rw [hres]; simp [hp], ?_⟩
    intro n r hn
    rw [hp] at hn
    exact absurd hn (by simp)
  · have hee : idStr.isEmpty = false := by
      cases idStr with
      | nil => exact absurd rfl he
      | cons a l => rfl
    cases hp : parseIntBase10 idStr with
    | none =>
      have hres : getReservationById s idStr = (400, none) := by
        simp [getReservationById, hee, hp]
      refine ⟨by rw [hres]; simp, by rw [hres]; simp, ?_⟩
      intro n r hn
      exact absurd hn (by simp)
    | some n =>
      cases hf : s.reservations.find? (fun r => r.id == n) with
      | none =>
        have hres : getReservationById s idStr = (404, none) := by
          simp [getReservationById, hee, hp, hf]
        refine ⟨by rw [hres]; simp, ?_, ?_⟩
        · rw [hres]
          constructor
          · intro h2
            exact ⟨n, rfl, hf⟩
          · intro h2
            rfl
        · intro m r2 hm hfm
          injection hm with hm
          subst hm
          rw [hf] at hfm
          exact absurd hfm (by simp)
      | some r =>
        have hres : getReservationById s idStr = (200, some r) := by
          simp [getReservationById, hee, hp, hf]
        refine ⟨by rw [hres]; simp, ?_, ?_⟩
        · rw [hres]
          constructor
          · intro h2
            exact absurd h2 (by simp)
          · rintro ⟨m, hm, hfm⟩
            injection hm with hm
            subst hm
            rw [hf] at hfm
            exact absurd hfm (by simp)
        · intro m r2 hm hfm
          injection hm with hm
          subst hm
          rw [hf] at hfm
          injection hfm with hfm
          subst hfm
          exact hres

/-- Witness for the amended C6 on the sample table. -/
theorem claim6_witness :
    (getReservationById demoStore (str "abc")).1 = 400 ∧
    getReservationById demoStore (str "12") = (200, some demoRes) := by
  constructor
  · exact (claim6_amended demoStore (str "abc")).1.mpr (by decide)
  · exact (claim6_amended demoStore (str "12")).2.2 12 demoRes (by decide) (by decide)

/-- C5 counterexample: updating a reservation that does not exist answers
the generic handleError status 500, not the claimed not-found 404. -/
theorem claim5_counterexample :
    updateReservation ⟨[]⟩ (str "1") {} 0 = (500, none, ⟨[]⟩) ∧
    (500 : Nat) ≠ 404 := by
  constructor
  · decide
  · decide

/-- C5 as amended: for every update request whose id does not name an
existing reservation, updateReservation fails through handleError with
status 500 and leaves the stored state unchanged. -/
theorem claim5_amended (s : Store) (idStr : Str) (b : UpdateBody) (tnow : Nat)
    (h : ∀ n, parseIntAuto idStr = some n → ∀ r ∈ s.reservations, r.id ≠ n) :
    updateReservation s idStr b tnow = (500, none, s) := by
  unfold updateReservation
  cases hp : parseIntAuto idStr with
  | none => rfl
  | some n =>
    have hany : (s.reservations.any fun r => r.id == n) = false := by
      rw [List.any_eq_false]
      intro r hr
      simp only [beq_iff_eq]
      exact h n hp r hr
    simp [prismaUpdate, hany, handleErrorStatus]

/-- Witness for the amended C5 on the empty table. -/
theorem claim5_witness :
    updateReservation ⟨[]⟩ (str "2") {} 5 = (500, none, ⟨[]⟩) := by
  apply claim5_amended
  intro n hn r hr
  exact absurd hr (List.not_mem_nil r)

/-- C9: createReservation reads only username, reservationDate, startTime,
endTime and phoneNumber from the request: two bodies agreeing on those
five fields create identically, and every persisted row has the scheduled
default status, no callDuration, no callSid, and the five request fields.
-/
theorem claim9_create (s : Store) (b : CreateBody) (newId : Int) (tnow : Nat) :
    (∀ b2 : CreateBody, b2.username = b.username →
      b2.reservationDate = b.reservationDate → b2.startTime = b.startTime →
      b2.endTime = b.endTime → b2.phoneNumber = b.phoneNumber →
      createReservation s b2 newId tnow = createReservation s b newId tnow) ∧
    (∀ code r s2, createReservation s b newId tnow = (code, some r, s2) →
      r.status = strScheduled ∧ r.callDuration = none ∧ r.callSid = none ∧
      r.id = newId ∧ r.username = b.username ∧
      r.reservationDate = b.reservationDate ∧ r.startTime = b.startTime ∧
      r.endTime = b.endTime ∧ r.phoneNumber = b.phoneNumber) := by
  constructor
  · intro b2 h1 h2 h3 h4 h5
    simp only [createReservation, h1, h2, h3, h4, h5]
  · intro code r s2 hout
    by_cases hv : (b.username.isEmpty || b.reservationDate.isEmpty ||
        b.startTime.isEmpty || b.endTime.isEmpty) = true
    · simp only [createReservation, hv, if_true] at hout
      rw [Prod.mk.injEq, Prod.mk.injEq] at hout
      exact absurd hout.2.1 (by simp)
    · rw [Bool.not_eq_true] at hv
      simp only [createReservation, hv, Bool.false_eq_true, if_false] at hout
      rw [Prod.mk.injEq, Prod.mk.injEq] at hout
      obtain ⟨-, hr, -⟩ := hout
      injection hr with hr
      subst hr
      exact ⟨rfl, rfl, rfl, rfl, rfl, rfl, rfl, rfl, rfl⟩

/-- Witness for C9: a body with every extra field set creates the same
row as the plain body, and the row is scheduled. -/
theorem claim9_witness :
    createReservation ⟨[]⟩ demoBodyExtras 1 0 = createReservation ⟨[]⟩ demoBodyPlain 1 0 ∧
    demoCreated.status = strScheduled := by
  have h := claim9_create (⟨[]⟩ : Store) demoBodyPlain 1 0
  constructor
  · exact h.1 demoBodyExtras rfl rfl rfl rfl rfl
  · exact (h.2 201 demoCreated ⟨[demoCreated]⟩ (by decide)).1

/-! ## Expiry-sweep correctness -/

lemma updById_cons (r : Reservation) (rest : List Reservation) (tnow : Nat)
    (hnotin : r.id ∉ rest.map (fun q => q.id)) (x : Reservation) :
    updById rest tnow (if x.id == r.id then completeData r tnow x else x) =
      updById (r :: rest) tnow x := by
  by_cases hxr : x.id = r.id
  · have hb : (x.id == r.id) = true := by simp [hxr]
    have hid : (completeData r tnow x).id = x.id := rfl
    have hf1 : rest.find? (fun q => q.id == (completeData r tnow x).id) = none := by
      rw [List.find?_eq_none]
      intro q hq
      simp only [hid, beq_iff_eq, hxr]
      intro hqq
      exact hnotin (hqq ▸ List.mem_map_of_mem (fun q => q.id) hq)
    have hf2 : (r :: rest).find? (fun q => q.id == x.id) = some r :=
      List.find?_cons_of_pos _ (by simp [hxr])
    simp only [hb, if_true, updById, hf1, hf2]
  · have hb : (x.id == r.id) = false := by simp [hxr]
    have hhead : ¬ ((fun q => q.id == x.id) r = true) := by
      simp only [beq_iff_eq]
      intro hc
      exact hxr hc.symm
    simp only [hb, Bool.false_eq_true, if_false, updById]
    have hf3 : List.find? (fun q => q.id == x.id) (r :: rest) =
        List.find? (fun q => q.id == x.id) rest :=
      List.find?_cons_of_neg rest hhead
    rw [hf3]

lemma sweep_ok (tnow : Nat) (l : List Reservation) :
    ∀ (s : List Reservation), (l.map (fun r => r.id)).Nodup →
    (∀ r ∈ l, ∃ x ∈ s, x.id = r.id) →
    sweepUpdates ⟨s⟩ tnow l = Except.ok ⟨s.map (updById l tnow)⟩ := by
  induction l with
  | nil =>
    intro s _ _
    have hmap : s.map (updById [] tnow) = s := by
      have h1 : List.map (updById [] tnow) s = List.map id s :=
        List.map_congr_left (fun x _ => rfl)
      rw [h1, List.map_id]
    rw [sweepUpdates, hmap]
  | cons r rest ih =>
    intro s hnd hmem
    have hany : (s.any fun x => x.id == r.id) = true := by
      rw [List.any_eq_true]
      obtain ⟨x, hx, hxid⟩ := hmem r (List.mem_cons_self r rest)
      exact ⟨x, hx, by simp [hxid]⟩
    have hnd2 : (rest.map (fun q => q.id)).Nodup := by
      rw [List.map_cons, List.nodup_cons] at hnd
      exact hnd.2
    have hnotin : r.id ∉ rest.map (fun q => q.id) := by
      rw [List.map_cons, List.nodup_cons] at hnd
      exact hnd.1
    have hmem2 : ∀ q ∈ rest,
        ∃ x ∈ s.map (fun x => if x.id == r.id then completeData r tnow x else x),
          x.id = q.id := by
      intro q hq
      obtain ⟨x, hx, hxid⟩ := hmem q (List.mem_cons_of_mem r hq)
      refine ⟨if x.id == r.id then completeData r tnow x else x,
        List.mem_map_of_mem _ hx, ?_⟩
      by_cases hxr : (x.id == r.id) = true
      · rw [if_pos hxr]
        exact hxid
      · rw [Bool.not_eq_true] at hxr
        rw [hxr]
        simp only [Bool.false_eq_true, if_false]
        exact hxid
    rw [sweepUpdates, prismaUpdate]
    simp only [hany, if_true]
    rw [ih _ hnd2 hmem2]
    rw [List.map_map]
    have : ∀ x ∈ s, (updById rest tnow ∘ fun x =>
        if x.id == r.id then completeData r tnow x else x) x =
          updById (r :: rest) tnow x :=
      fun x _ => updById_cons r rest tnow hnotin x
    rw [List.map_congr_left this]

lemma updById_filter (s : List Reservation) (p : Reservation → Bool) (tnow : Nat)
    (hids : (s.map (fun r => r.id)).Nodup) (x : Reservation) (hx : x ∈ s) :
    updById (s.filter p) tnow x = if p x then completeData x tnow x else x := by
  have hinj := List.inj_on_of_nodup_map hids
  by_cases hpx : p x = true
  · have hxf : x ∈ s.filter p := List.mem_filter.mpr ⟨hx, hpx⟩
    cases hf : (s.filter p).find? (fun r => r.id == x.id) with
    | none =>
      rw [List.find?_eq_none] at hf
      exact absurd (by simp : (x.id == x.id) = true) (hf x hxf)
    | some q =>
      have hq1 := List.find?_some hf
      have hq2 : q ∈ s.filter p := List.mem_of_find?_eq_some hf
      have hq3 : q ∈ s := (List.mem_filter.mp hq2).1
      have hqx : q = x := hinj hq3 hx (by simpa using hq1)

      simp only [updById, hf, hqx, hpx, if_true]
  · rw [Bool.not_eq_true] at hpx
    have hf : (s.filter p).find? (fun r => r.id == x.id) = none := by
      rw [List.find?_eq_none]
      intro q hq
      simp only [beq_iff_eq]
      intro hqq
      have hq3 : q ∈ s := (List.mem_filter.mp hq).1
      have hqx : q = x := hinj hq3 hx hqq
      subst hqx
      have := (List.mem_filter.mp hq).2
      rw [hpx] at this
      exact absurd this (by simp)
    simp only [updById, hf, hpx, Bool.false_eq_true, if_false]

lemma sweepResult (s : Store) (today now : Str) (tnow : Nat)
    (hids : (s.reservations.map (fun r => r.id)).Nodup) :
    updateExpiredReservations s today now tnow =
      (200, (s.reservations.filter (isExpired today now)).length,
        ⟨s.reservations.map (fun r =>
          if isExpired today now r then completeData r tnow r else r)⟩) := by
  unfold updateExpiredReservations
  by_cases hemp : (s.reservations.filter (isExpired today now)).isEmpty = true
  · have hnil : s.reservations.filter (isExpired today now) = [] :=
      List.isEmpty_iff.mp hemp
    have hall : ∀ r ∈ s.reservations, isExpired today now r = false := by
      intro r hr
      by_contra hcon
      rw [Bool.not_eq_false] at hcon
      have : r ∈ s.reservations.filter (isExpired today now) :=
        List.mem_filter.mpr ⟨hr, hcon⟩
      rw [hnil] at this
      exact absurd this (List.not_mem_nil r)
    have hmap : s.reservations.map (fun r =>
        if isExpired today now r then completeData r tnow r else r) =
          s.reservations := by
      have h1 : List.map (fun r =>
          if isExpired today now r then completeData r tnow r else r)
            s.reservations = List.map id s.reservations :=
        List.map_congr_left (fun r hr => by simp [hall r hr])
      rw [h1, List.map_id]
    simp only [hnil, List.isEmpty_nil, if_true, List.length_nil, hmap]
  · rw [Bool.not_eq_true] at hemp
    have hnd : ((s.reservations.filter (isExpired today now)).map
        (fun r => r.id)).Nodup :=
      List.Nodup.sublist (List.Sublist.map _ (List.filter_sublist _)) hids
    have hmem : ∀ r ∈ s.reservations.filter (isExpired today now),
        ∃ x ∈ s.reservations, x.id = r.id :=
      fun r hr => ⟨r, (List.mem_filter.mp hr).1, rfl⟩
    have hok := sweep_ok tnow (s.reservations.filter (isExpired today now))
      s.reservations hnd hmem
    simp only [hemp, Bool.false_eq_true, if_false, hok]
    have hpt : ∀ x ∈ s.reservations,
        updById (s.reservations.filter (isExpired today now)) tnow x =
          if isExpired today now x then completeData x tnow x else x :=
      fun x hx => updById_filter s.reservations (isExpired today now) tnow hids x hx
    rw [List.map_congr_left hpt]

/-- C2: at any clock reading the sweep succeeds with 200, reports as its
count exactly the rows that are ongoing and past due, and the resulting
table completes exactly those rows, setting callDuration to the current
value or zero when unset, while every other row is left unchanged; an
empty selection is the successful empty result. -/
theorem claim2_sweep (s : Store) (today now : Str) (tnow : Nat)
    (hids : (s.reservations.map (fun r => r.id)).Nodup) :
    (updateExpiredReservations s today now tnow).1 = 200 ∧
    (updateExpiredReservations s today now tnow).2.1 =
      (s.reservations.filter (isExpired today now)).length ∧
    (updateExpiredReservations s today now tnow).2.2.reservations =
      s.reservations.map (fun r =>
        if isExpired today now r then completeData r tnow r else r) := by
  rw [sweepResult s today now tnow hids]
  exact ⟨rfl, rfl, rfl⟩

/-- Witness for C2 on the sample table with one overdue ongoing row. -/
theorem claim2_witness :
    (updateExpiredReservations demoSweepStore (str "2025-06-01") (str "12:00") 3).1 = 200 ∧
    (updateExpiredReservations demoSweepStore (str "2025-06-01") (str "12:00") 3).2.1 = 1 := by
  have h := claim2_sweep demoSweepStore (str "2025-06-01") (str "12:00") 3 (by decide)
  refine ⟨h.1, ?_⟩
  rw [h.2.1]
  decide

/-- C3: the sweep is idempotent: at a fixed clock reading a second run on
the swept table changes nothing and reports a count of zero. -/
theorem claim3_idempotent (s : Store) (today now : Str) (t1 t2 : Nat)
    (hids : (s.reservations.map (fun r => r.id)).Nodup) :
    updateExpiredReservations
        ((updateExpiredReservations s today now t1).2.2) today now t2 =
      (200, 0, (updateExpiredReservations s today now t1).2.2) := by
  have h1 := sweepResult s today now t1 hids
  have hres : (updateExpiredReservations s today now t1).2.2.reservations =
      s.reservations.map (fun r =>
        if isExpired today now r then completeData r t1 r else r) := by
    rw [h1]
  have hco : (strCompleted == strOngoing) = false := by decide
  set s1 := (updateExpiredReservations s today now t1).2.2 with hs1
  have hnone : s1.reservations.filter (isExpired today now) = [] := by
    rw [hres, List.filter_eq_nil_iff]
    intro a ha
    rw [List.mem_map] at ha
    obtain ⟨r, hr, hfr⟩ := ha
    subst hfr
    by_cases hex : isExpired today now r = true
    · rw [if_pos hex]
      simp [isExpired, completeData, hco]
    · rw [Bool.not_eq_true] at hex
      rw [if_neg (by simp [hex])]
      simp [hex]
  unfold updateExpiredReservations
  simp only [hnone, List.isEmpty_nil, if_true]

/-- Witness for C3 on the sample table. -/
theorem claim3_witness :
    updateExpiredReservations
        ((updateExpiredReservations demoSweepStore (str "2025-06-01")
          (str "12:00") 3).2.2) (str "2025-06-01") (str "12:00") 4 =
      (200, 0, (updateExpiredReservations demoSweepStore (str "2025-06-01")
        (str "12:00") 3).2.2) :=
  claim3_idempotent demoSweepStore (str "2025-06-01") (str "12:00") 3 4 (by decide)

end CallServer
